import Mathlib

/-!
Verification of the `BlobStorageClientProxy` component of BatchExplorer
against its specification.  The TypeScript class wraps the Azure blob
storage SDK; here each method is shallowly embedded as a Lean function.
Strings stay `String`; JavaScript `undefined`-able values become `Option`;
byte buffers become `List Nat`; the underlying SDK calls (network) are
passed in explicitly, either as data (the pages an iterator yields, the
response of a `getProperties` call) or as an explicit world state for the
stateful container/blob operations.
-/

set_option maxHeartbeats 1000000
set_option maxRecDepth 4000

namespace BlobProxy

/-- Shared-key credential handed to the proxy constructor. -/
structure StorageSharedKeyCredential where
  accountName : String
  accountKey : String
deriving DecidableEq, Repr

/-- The SDK service client the constructor builds: it records the account
URL it was created with and the credential. -/
structure BlobServiceClient where
  url : String
  credential : StorageSharedKeyCredential
deriving DecidableEq, Repr

/-- The proxy object: `credential` and `blobEndpoint` are the constructor
arguments, `storageService` the SDK client built once in the constructor. -/
structure BlobStorageClientProxy where
  credential : StorageSharedKeyCredential
  blobEndpoint : String
  storageService : BlobServiceClient
deriving DecidableEq, Repr

/-- Embedding of `new BlobStorageClientProxy(credential, blobEndpoint)`:
`this.storageService = new BlobServiceClient("https://" + accountName + "." + blobEndpoint, credential)`. -/
def mkBlobStorageClientProxy (credential : StorageSharedKeyCredential)
    (blobEndpoint : String) : BlobStorageClientProxy :=
  { credential := credential
    blobEndpoint := blobEndpoint
    storageService :=
      { url := "https://" ++ credential.accountName ++ "." ++ blobEndpoint
        credential := credential } }

/-- JavaScript truthiness of a possibly-`undefined` string: `undefined`
and the empty string are falsy. -/
def jsTruthy : Option String → Bool
  | none => false
  | some s => !s.isEmpty

/-- JavaScript template-literal interpolation of a possibly-`undefined`
string: interpolating `undefined` yields the text "undefined". -/
def jsInterp : Option String → String
  | none => "undefined"
  | some s => s

/-- How `Array.prototype.join` renders a possibly-`undefined` element:
`undefined` becomes the empty string. -/
def jsJoinElem : Option String → String
  | none => ""
  | some s => s

/-- `Array.prototype.join(sep)` on an array of strings. -/
def jsJoin (sep : String) : List String → String
  | [] => ""
  | [x] => x
  | x :: xs => x ++ sep ++ jsJoin sep xs

/-- Embedding of `getUrl(container, blob?, sasToken?)`:
the source builds the three-element array
`[https://<account>.<endpoint>, container, blob ? "/" + blob + sasToken : sasToken]`
and joins it with "/". -/
def getUrl (p : BlobStorageClientProxy) (container : String)
    (blob : Option String := none) (sasToken : Option String := none) : String :=
  jsJoin "/"
    [ "https://" ++ p.credential.accountName ++ "." ++ p.blobEndpoint,
      container,
      if jsTruthy blob then "/" ++ jsInterp blob ++ jsInterp sasToken
      else jsJoinElem sasToken ]

/-- Property bag the underlying SDK reports for a blob item.  The SDK does
report a creation time (`createdOn`); the proxy ignores it. -/
structure SdkBlobProps where
  contentLength : Nat
  contentType : String
  creationTime : Option Nat
  lastModified : Nat
deriving DecidableEq, Repr

/-- A blob item as yielded by the SDK's hierarchical listing. -/
structure SdkBlobItem where
  name : String
  properties : SdkBlobProps
deriving DecidableEq, Repr

/-- A directory-prefix entry as yielded by the SDK's hierarchical listing
(the SDK calls these blob prefixes). -/
structure SdkBlobDir where
  name : String
deriving DecidableEq, Repr

/-- One page segment of a hierarchical listing: the SDK's
`page.segment`, holding `blobPrefixes` and `blobItems`. -/
structure PageSegment where
  blobPrefixes : List SdkBlobDir
  blobItems : List SdkBlobItem
deriving DecidableEq, Repr

/-- One page yielded by `byPage`: its segment plus the SDK's own
continuation token for resuming after this page (which the proxy code
never reads). -/
structure SdkPage where
  segment : PageSegment
  continuationToken : Option String
deriving DecidableEq, Repr

/-- Properties carried by a file descriptor in the proxy's output. -/
structure BlobProperties where
  contentLength : Nat
  contentType : String
  creationTime : Option Nat
  lastModified : Nat
deriving DecidableEq, Repr

/-- The proxy's output descriptor for a blob or virtual directory. -/
structure BlobDescriptor where
  name : String
  url : String
  isDirectory : Bool
  properties : Option BlobProperties
deriving DecidableEq, Repr

/-- The uniform result envelope: data plus optional continuation token. -/
structure BlobStorageResult (T : Type) where
  data : T
  continuationToken : Option String := none
deriving DecidableEq, Repr

/-- Options of `listBlobs`: `folder` (path filter), `recursive`
(list all files or one directory deep), `limit` (page size). -/
structure ListBlobOptions where
  folder : Option String := none
  recursive : Bool := false
  limit : Option Nat := none
deriving DecidableEq, Repr

/-- The descriptor the loop pushes for a directory-prefix entry:
name, url "container/name", isDirectory true, no properties field. -/
def dirDescriptor (container : String) (d : SdkBlobDir) : BlobDescriptor :=
  { name := d.name
    url := container ++ "/" ++ d.name
    isDirectory := true
    properties := none }

/-- The descriptor the loop pushes for a blob item: name,
url "container/name", isDirectory false, and the four-field property bag
with creationTime hard-coded to null. -/
def fileDescriptor (container : String) (b : SdkBlobItem) : BlobDescriptor :=
  { name := b.name
    url := container ++ "/" ++ b.name
    isDirectory := false
    properties := some
      { contentLength := b.properties.contentLength
        contentType := b.properties.contentType
        creationTime := none
        lastModified := b.properties.lastModified } }

/-- The `for await (const page of pages)` loop body of `listBlobs`,
with the mutable `blobs` array as an accumulator: for each page it pushes
a descriptor per `segment.blobPrefixes` entry, then one per
`segment.blobItems` entry. -/
def listBlobsLoop (container : String) (acc : List BlobDescriptor) :
    List SdkPage → List BlobDescriptor
  | [] => acc
  | page :: rest =>
      let acc1 := page.segment.blobPrefixes.foldl
        (fun a d => a ++ [dirDescriptor container d]) acc
      let acc2 := page.segment.blobItems.foldl
        (fun a b => a ++ [fileDescriptor container b]) acc1
      listBlobsLoop container acc2 rest

/-- Embedding of `listBlobs(container, options, continuationToken?)`
with the pages the SDK iterator yields passed in explicitly: runs the
accumulation loop over every yielded page and returns
`{ data: blobs, continuationToken }` where `continuationToken` is the
function's own parameter. -/
def listBlobs (container : String) (pages : List SdkPage)
    (continuationToken : Option String := none) :
    BlobStorageResult (List BlobDescriptor) :=
  { data := listBlobsLoop container [] pages
    continuationToken := continuationToken }

/-- Whether string p is a prefix of string s (computed on the character
lists). -/
def strIsPrefixOf (p s : String) : Bool := p.data.isPrefixOf s.data

/-- Whether string s contains character c (computed on the character
list). -/
def strContains (s : String) (c : Char) : Bool := s.data.contains c

/-- The part of a blob name after the folder filter. -/
def restAfter (pfx name : String) : String := String.mk (name.data.drop pfx.data.length)

/-- Modelled from the spec: the blob items the SDK's
`listBlobsByHierarchy(delimiter, { prefix })` enumeration yields as
`blobItems` (the SDK itself is not part of this repository).  With a
delimiter, an item is yielded only when its name matches the filter and
the remainder of the name after the filter contains no delimiter; with a
null delimiter every matching blob is yielded flattened. -/
def hierItems (delim : Option Char) (pfx : String) (blobs : List SdkBlobItem) :
    List SdkBlobItem :=
  match delim with
  | none => blobs.filter (fun b => strIsPrefixOf pfx b.name)
  | some d => blobs.filter
      (fun b => strIsPrefixOf pfx b.name && !strContains (restAfter pfx b.name) d)

/-- Name of the directory-prefix entry grouping a nested blob: the filter
followed by the first delimiter-terminated segment of the remainder. -/
def hierDirName (d : Char) (pfx name : String) : String :=
  String.mk (pfx.data ++ (restAfter pfx name).data.takeWhile (fun c => c ≠ d) ++ [d])

/-- Modelled from the spec: the directory-prefix entries the SDK's
hierarchical enumeration yields as `blobPrefixes`: one per distinct
first-level group of nested matching blobs; none when the delimiter is
null. -/
def hierDirs (delim : Option Char) (pfx : String) (blobs : List SdkBlobItem) :
    List SdkBlobDir :=
  match delim with
  | none => []
  | some d =>
      ((blobs.filter
          (fun b => strIsPrefixOf pfx b.name && strContains (restAfter pfx b.name) d)).map
        (fun b => SdkBlobDir.mk (hierDirName d pfx b.name))).dedup

/-- The full hierarchical listing as one segment. -/
def hierarchySegment (delim : Option Char) (pfx : String)
    (blobs : List SdkBlobItem) : PageSegment :=
  { blobPrefixes := hierDirs delim pfx blobs
    blobItems := hierItems delim pfx blobs }

/-- The delimiter `listBlobs` passes to the SDK:
`options.recursive ? null : "/"`. -/
def listBlobsDelimiter (options : ListBlobOptions) : Option Char :=
  if options.recursive then none else some '/'

/-- State of the storage account behind the SDK: which (container, blob
path) pairs exist and which containers exist. -/
structure StorageAccount where
  blobs : List (String × String)
  containers : List String
deriving DecidableEq, Repr

/-- Shape of the SDK's deleteIfExists / createIfNotExists responses. -/
structure IfExistsResponse where
  succeeded : Bool
deriving DecidableEq, Repr

/-- Modelled from the spec: the SDK blob client's `deleteIfExists`
(the SDK is not part of this repository): deletes the blob when present
and reports `succeeded` true exactly when a delete occurred. -/
def sdkDeleteIfExists (w : StorageAccount) (container blob : String) :
    IfExistsResponse × StorageAccount :=
  if (container, blob) ∈ w.blobs then
    (⟨true⟩, { w with blobs := w.blobs.filter (fun x => x ≠ (container, blob)) })
  else
    (⟨false⟩, w)

/-- Modelled from the spec: the SDK container client's `createIfNotExists`
(the SDK is not part of this repository): creates the container when
absent and reports `succeeded` true exactly when a creation occurred. -/
def sdkCreateIfNotExists (w : StorageAccount) (containerName : String) :
    IfExistsResponse × StorageAccount :=
  if containerName ∈ w.containers then
    (⟨false⟩, w)
  else
    (⟨true⟩, { w with containers := containerName :: w.containers })

/-- Embedding of `deleteBlobIfExists(container, blob, options?)`:
awaits the client's `deleteIfExists` and returns `response.succeeded`. -/
def deleteBlobIfExists (w : StorageAccount) (container blob : String) :
    Bool × StorageAccount :=
  let (response, w') := sdkDeleteIfExists w container blob
  (response.succeeded, w')

/-- Embedding of `createContainerIfNotExists(containerName, options?)`:
awaits the client's `createIfNotExists` and returns `response.succeeded`. -/
def createContainerIfNotExists (w : StorageAccount) (containerName : String) :
    Bool × StorageAccount :=
  let (response, w') := sdkCreateIfNotExists w containerName
  (response.succeeded, w')

/-- A JavaScript error value: either a TypeError thrown locally or an
error the SDK rejected with. -/
inductive JsError
  | typeError (msg : String)
  | sdkError (code : String) (msg : String)
deriving DecidableEq, Repr

/-- Shape of the SDK's `getProperties` response for a blob (the SDK does
report a creation time; the proxy ignores it). -/
structure SdkGetPropsResponse where
  contentLength : Nat
  contentType : String
  creationTime : Option Nat
  lastModified : Nat
deriving DecidableEq, Repr

/-- Embedding of `getBlobProperties(container, blobName, blobPrefix = "", options?)`
with the settled outcome of the SDK's `getProperties` call passed in: an
SDK rejection propagates unchanged (the body has no catch); a fulfilled
call produces the single-descriptor envelope with
url `container + "/" + blobPrefix + blobName` and creationTime null. -/
def getBlobProperties (props : Except JsError SdkGetPropsResponse)
    (container blobName : String) (blobPfx : String := "") :
    Except JsError (BlobStorageResult BlobDescriptor) :=
  match props with
  | .error e => .error e
  | .ok r =>
      let blobPath := blobPfx ++ blobName
      .ok { data :=
            { name := blobName
              url := container ++ "/" ++ blobPath
              isDirectory := false
              properties := some
                { contentLength := r.contentLength
                  contentType := r.contentType
                  creationTime := none
                  lastModified := r.lastModified } } }

/-- The SDK container client handle: determined by the service client it
was obtained from and the container name. -/
structure ContainerClient where
  service : BlobServiceClient
  containerName : String
deriving DecidableEq, Repr

/-- The SDK block-blob client handle. -/
structure BlockBlobClient where
  containerClient : ContainerClient
  blobName : String
deriving DecidableEq, Repr

/-- Embedding of the private `getContainerClient(container)`:
`this.storageService.getContainerClient(container)` — a fresh handle
from the shared service client, per call. -/
def getContainerClient (p : BlobStorageClientProxy) (container : String) :
    ContainerClient :=
  { service := p.storageService, containerName := container }

/-- Embedding of the private `getBlobClient(container, blobName)`:
`this.getContainerClient(container).getBlockBlobClient(blobName)`. -/
def getBlobClient (p : BlobStorageClientProxy) (container blobName : String) :
    BlockBlobClient :=
  { containerClient := getContainerClient p container, blobName := blobName }

/-- The fields of a SharedAccessPolicy's `AccessPolicy` object. -/
structure AccessPolicyFields where
  Permissions : String
deriving DecidableEq, Repr

/-- A SharedAccessPolicy as consumed by `generateSasUrl`. -/
structure SharedAccessPolicy where
  AccessPolicy : AccessPolicyFields
deriving DecidableEq, Repr

/-- Embedding of `generateSasUrl(container, blob?, accessPolicy?)` with
the SDK's blob-level and container-level `generateSasUrl` calls passed in
as oracles.  The body first evaluates
`accessPolicy.AccessPolicy.Permissions` unconditionally: when
`accessPolicy` is undefined this throws a TypeError before either SDK
oracle is consulted; otherwise the blob-level oracle is used when `blob`
is truthy, the container-level oracle when it is not. -/
def generateSasUrl (p : BlobStorageClientProxy)
    (blobSas : BlockBlobClient → String → Except JsError String)
    (containerSas : ContainerClient → String → Except JsError String)
    (container : String) (blob : Option String := none)
    (accessPolicy : Option SharedAccessPolicy := none) :
    Except JsError String :=
  match accessPolicy with
  | none => .error (.typeError "Cannot read properties of undefined")
  | some ap =>
      let permissions := ap.AccessPolicy.Permissions
      match blob with
      | some b =>
          if b.isEmpty then containerSas (getContainerClient p container) permissions
          else blobSas (getBlobClient p container b) permissions
      | none => containerSas (getContainerClient p container) permissions

/-- A Unicode scalar value usable in text: below the surrogate range, or
above it and below 0x110000. -/
def validCp (c : Nat) : Bool := c < 0xD800 || (0xE000 ≤ c && c < 0x110000)

/-- Standard UTF-8 encoding of one code point as bytes. -/
def encodeChar (c : Nat) : List Nat :=
  if c < 0x80 then [c]
  else if c < 0x800 then [0xC0 + c / 64, 0x80 + c % 64]
  else if c < 0x10000 then [0xE0 + c / 4096, 0x80 + c / 64 % 64, 0x80 + c % 64]
  else [0xF0 + c / 262144, 0x80 + c / 4096 % 64, 0x80 + c / 64 % 64, 0x80 + c % 64]

/-- UTF-8 encoding of a sequence of code points. -/
def utf8Encode (cs : List Nat) : List Nat := (cs.map encodeChar).flatten

/-- Whether a byte is a UTF-8 continuation byte 10xxxxxx. -/
def contByte (b : Nat) : Bool := 0x80 ≤ b && b < 0xC0

/-- Reads one continuation byte: its 6 payload bits and the remaining
bytes, or none when the next byte is not a continuation byte. -/
def cont1 : List Nat → Option (Nat × List Nat)
  | b :: r => if contByte b then some (b - 0x80, r) else none
  | [] => none

/-- Reads two continuation bytes, combining their payloads. -/
def cont2 (l : List Nat) : Option (Nat × List Nat) :=
  (cont1 l).bind (fun p => (cont1 p.2).map (fun q => (p.1 * 64 + q.1, q.2)))

/-- Reads three continuation bytes, combining their payloads. -/
def cont3 (l : List Nat) : Option (Nat × List Nat) :=
  (cont1 l).bind (fun p => (cont2 p.2).map (fun q => (p.1 * 4096 + q.1, q.2)))

/-- Strict UTF-8 decoding of one code point from the head of a byte
sequence: the code point and the remaining bytes.  Rejects truncated
sequences, stray continuation bytes, overlong forms, surrogate code
points and values above 0x10FFFF. -/
def decode1 : List Nat → Option (Nat × List Nat)
  | [] => none
  | b1 :: rest =>
    if b1 < 0x80 then some (b1, rest)
    else if b1 < 0xE0 then
      (cont1 rest).bind (fun p =>
        if 0xC2 ≤ b1 then some ((b1 - 0xC0) * 64 + p.1, p.2) else none)
    else if b1 < 0xF0 then
      (cont2 rest).bind (fun p =>
        if 0x800 ≤ (b1 - 0xE0) * 4096 + p.1 && validCp ((b1 - 0xE0) * 4096 + p.1) then
          some ((b1 - 0xE0) * 4096 + p.1, p.2)
        else none)
    else if b1 < 0xF8 then
      (cont3 rest).bind (fun p =>
        if 0x10000 ≤ (b1 - 0xF0) * 262144 + p.1 && (b1 - 0xF0) * 262144 + p.1 < 0x110000 then
          some ((b1 - 0xF0) * 262144 + p.1, p.2)
        else none)
    else none

lemma cont1_length (l : List Nat) (p : Nat × List Nat) (h : cont1 l = some p) :
    p.2.length + 1 = l.length := by
  cases l with
  | nil => simp [cont1] at h
  | cons b r =>
      simp only [cont1] at h
      split at h
      · cases h
        simp only [List.length_cons]
      · cases h

lemma cont2_length (l : List Nat) (p : Nat × List Nat) (h : cont2 l = some p) :
    p.2.length + 2 = l.length := by
  simp only [cont2, Option.bind_eq_some, Option.map_eq_some'] at h
  obtain ⟨q, hq, r, hr, rfl⟩ := h
  have h1 := cont1_length l q hq
  have h2 := cont1_length q.2 r hr
  simp only
  omega

lemma cont3_length (l : List Nat) (p : Nat × List Nat) (h : cont3 l = some p) :
    p.2.length + 3 = l.length := by
  simp only [cont3, Option.bind_eq_some, Option.map_eq_some'] at h
  obtain ⟨q, hq, r, hr, rfl⟩ := h
  have h1 := cont1_length l q hq
  have h2 := cont2_length q.2 r hr
  simp only
  omega

lemma decode1_length (l : List Nat) (p : Nat × List Nat) (h : decode1 l = some p) :
    p.2.length < l.length := by
  cases l with
  | nil => simp [decode1] at h
  | cons b1 rest =>
      simp only [decode1] at h
      split at h
      · cases h
        simp
      · split at h
        · simp only [Option.bind_eq_some] at h
          obtain ⟨q, hq, h2⟩ := h
          split at h2
          · cases h2
            have := cont1_length rest q hq
            simp only [List.length_cons]
            omega
          · cases h2
        · split at h
          · simp only [Option.bind_eq_some] at h
            obtain ⟨q, hq, h2⟩ := h
            split at h2
            · cases h2
              have := cont2_length rest q hq
              simp only [List.length_cons]
              omega
            · cases h2
          · split at h
            · simp only [Option.bind_eq_some] at h
              obtain ⟨q, hq, h2⟩ := h
              split at h2
              · cases h2
                have := cont3_length rest q hq
                simp only [List.length_cons]
                omega
              · cases h2
            · cases h

/-- Strict UTF-8 decoding of a whole byte sequence to code points,
decoding one code point at a time; none as soon as the head is not a
well-formed code point encoding. -/
def utf8Decode (l : List Nat) : Option (List Nat) :=
  match hstep : decode1 l with
  | some p => (utf8Decode p.2).map (fun cs => p.1 :: cs)
  | none =>
      match l with
      | [] => some []
      | _ :: _ => none
termination_by l.length
decreasing_by exact decode1_length l p hstep

/-- Result of `getBlobContent`: either text decoded from a detected
encoding, or the raw-byte string representation of an undetected buffer. -/
inductive BlobContent
  | text (codepoints : List Nat)
  | raw (buffer : List Nat)
deriving DecidableEq, Repr

/-- Modelled from the spec: `EncodingUtils.detectEncodingFromBuffer` of
`@batch-flask/utils` is not in the excerpt; per the spec it auto-detects a
supported text encoding from the byte content.  It is modelled with UTF-8
as the supported encoding: detection succeeds exactly when the buffer is
well-formed UTF-8. -/
def detectEncodingFromBuffer (buffer : List Nat) : Option String :=
  match utf8Decode buffer with
  | some _ => some "utf-8"
  | none => none

/-- Embedding of `getBlobContent(container, blob, options?)` applied to
the downloaded buffer: when an encoding is detected, the buffer is decoded
with it (`new TextDecoder(encoding).decode(buffer)`, modelled by
`utf8Decode` for the modelled supported encoding); otherwise
`buffer.toString()`, the raw-byte string representation, is returned. -/
def getBlobContent (buffer : List Nat) : BlobContent :=
  match detectEncodingFromBuffer buffer, utf8Decode buffer with
  | some _, some cs => .text cs
  | _, _ => .raw buffer

/-- The `listBlobs` method call with the proxy object threaded explicitly:
the transcribed body reads `this` (for the container client) but never
assigns to it, so the proxy after the call is the one it started with. -/
def listBlobsCall (p : BlobStorageClientProxy) (container : String)
    (pages : List SdkPage) (continuationToken : Option String := none) :
    BlobStorageResult (List BlobDescriptor) × BlobStorageClientProxy :=
  let client := getContainerClient p container
  (listBlobs client.containerName pages continuationToken, p)

/-- The `getBlobProperties` method call with the proxy threaded explicitly. -/
def getBlobPropertiesCall (p : BlobStorageClientProxy)
    (props : Except JsError SdkGetPropsResponse)
    (container blobName : String) (blobPfx : String := "") :
    Except JsError (BlobStorageResult BlobDescriptor) × BlobStorageClientProxy :=
  let _client := getBlobClient p container blobName
  (getBlobProperties props container blobName blobPfx, p)

/-- The `deleteBlobIfExists` method call with the proxy and the account
state threaded explicitly. -/
def deleteBlobIfExistsCall (p : BlobStorageClientProxy) (w : StorageAccount)
    (container blob : String) :
    Bool × BlobStorageClientProxy × StorageAccount :=
  let client := getBlobClient p container blob
  let (response, w') := sdkDeleteIfExists w client.containerClient.containerName client.blobName
  (response.succeeded, p, w')

/-- The `createContainerIfNotExists` method call with the proxy and the
account state threaded explicitly. -/
def createContainerIfNotExistsCall (p : BlobStorageClientProxy)
    (w : StorageAccount) (containerName : String) :
    Bool × BlobStorageClientProxy × StorageAccount :=
  let client := getContainerClient p containerName
  let (response, w') := sdkCreateIfNotExists w client.containerName
  (response.succeeded, p, w')

/-- The `getUrl` method call with the proxy threaded explicitly. -/
def getUrlCall (p : BlobStorageClientProxy) (container : String)
    (blob : Option String := none) (sasToken : Option String := none) :
    String × BlobStorageClientProxy :=
  (getUrl p container blob sasToken, p)

/-- The `generateSasUrl` method call with the proxy threaded explicitly. -/
def generateSasUrlCall (p : BlobStorageClientProxy)
    (blobSas : BlockBlobClient → String → Except JsError String)
    (containerSas : ContainerClient → String → Except JsError String)
    (container : String) (blob : Option String := none)
    (accessPolicy : Option SharedAccessPolicy := none) :
    Except JsError String × BlobStorageClientProxy :=
  (generateSasUrl p blobSas containerSas container blob accessPolicy, p)

/-- The `getBlobContent` method call with the proxy threaded explicitly and
the downloaded buffer passed in (the body reads `this` for the blob client
of `_getBlobAsBuffer` but never assigns to it). -/
def getBlobContentCall (p : BlobStorageClientProxy) (buffer : List Nat)
    (container blob : String) : BlobContent × BlobStorageClientProxy :=
  let _client := getBlobClient p container blob
  (getBlobContent buffer, p)

/-- The `getBlobToLocalFile` method call with the proxy threaded explicitly
and the SDK's `downloadToFile` passed in as an oracle taking the client
handle and the local file name. -/
def getBlobToLocalFileCall (p : BlobStorageClientProxy)
    (download : BlockBlobClient → String → Except JsError Unit)
    (container blob localFileName : String) :
    Except JsError Unit × BlobStorageClientProxy :=
  (download (getBlobClient p container blob) localFileName, p)

/-- A container item as yielded by the SDK's container listing. -/
structure SdkContainerItem where
  name : String
  lastModified : Nat
deriving DecidableEq, Repr

/-- One page yielded by the container listing's `byPage`. -/
structure SdkContainerPage where
  containerItems : List SdkContainerItem
  continuationToken : Option String
deriving DecidableEq, Repr

/-- A container entry in the proxy's output: the SDK item's fields spread
plus an `id` field mirroring its name. -/
structure ContainerEntry where
  name : String
  lastModified : Nat
  id : String
deriving DecidableEq, Repr

/-- The `for await` loop body of `listContainersWithPrefix`, with the
mutable `containers` array as an accumulator: for each page it pushes one
entry per `containerItems` element, copying its fields and adding
`id = name`. -/
def listContainersLoop (acc : List ContainerEntry) :
    List SdkContainerPage → List ContainerEntry
  | [] => acc
  | page :: rest =>
      listContainersLoop
        (page.containerItems.foldl
          (fun a c => a ++ [{ name := c.name, lastModified := c.lastModified,
                              id := c.name }]) acc) rest

/-- Embedding of `listContainersWithPrefix(prefix, continuationToken?, options?)`
with the pages the SDK iterator yields passed in explicitly: collects every
yielded page and returns `{ data: containers, continuationToken }` where
`continuationToken` is the function's own parameter. -/
def listContainersWithPrefix (pages : List SdkContainerPage)
    (continuationToken : Option String := none) :
    BlobStorageResult (List ContainerEntry) :=
  { data := listContainersLoop [] pages
    continuationToken := continuationToken }

/-- The `listContainersWithPrefix` method call with the proxy threaded
explicitly (the body reads `this.storageService` but never assigns to it). -/
def listContainersWithPrefixCall (p : BlobStorageClientProxy) (pfx : String)
    (pages : List SdkContainerPage) (tok : Option String := none) :
    BlobStorageResult (List ContainerEntry) × BlobStorageClientProxy :=
  let _service := p.storageService
  (listContainersWithPrefix pages tok, p)

/-- Shape of the SDK's `getProperties` response for a container. -/
structure SdkContainerGetPropsResponse where
  etag : String
  lastModified : Nat
deriving DecidableEq, Repr

/-- Embedding of `getContainerProperties(container, options?)` with the
settled outcome of the SDK call passed in: a rejection propagates
unchanged; a fulfilled call is wrapped as `{ data: response }`. -/
def getContainerProperties
    (response : Except JsError SdkContainerGetPropsResponse) :
    Except JsError (BlobStorageResult SdkContainerGetPropsResponse) :=
  match response with
  | .error e => .error e
  | .ok r => .ok { data := r }

/-- The `getContainerProperties` method call with the proxy threaded
explicitly. -/
def getContainerPropertiesCall (p : BlobStorageClientProxy)
    (response : Except JsError SdkContainerGetPropsResponse)
    (container : String) :
    Except JsError (BlobStorageResult SdkContainerGetPropsResponse) ×
      BlobStorageClientProxy :=
  let _client := getContainerClient p container
  (getContainerProperties response, p)

/-- Modelled from the spec: the SDK service client's `deleteContainer`
(the SDK is not part of this repository): marks an existing container for
deletion; rejects with a not-found error when it does not exist. -/
def sdkDeleteContainer (w : StorageAccount) (container : String) :
    Except JsError Unit × StorageAccount :=
  if container ∈ w.containers then
    (.ok (), { w with containers := w.containers.filter (fun x => x ≠ container) })
  else
    (.error (.sdkError "ContainerNotFound" "The specified container does not exist."), w)

/-- Modelled from the spec: the SDK service client's `createContainer`
(the SDK is not part of this repository): creates an absent container;
rejects when a container with the same name already exists, as the
method's own doc comment states. -/
def sdkCreateContainer (w : StorageAccount) (containerName : String) :
    Except JsError Unit × StorageAccount :=
  if containerName ∈ w.containers then
    (.error (.sdkError "ContainerAlreadyExists" "The specified container already exists."), w)
  else
    (.ok (), { w with containers := containerName :: w.containers })

/-- The `deleteContainer` method call with the proxy and the account state
threaded explicitly. -/
def deleteContainerCall (p : BlobStorageClientProxy) (w : StorageAccount)
    (container : String) :
    Except JsError Unit × BlobStorageClientProxy × StorageAccount :=
  let r := sdkDeleteContainer w container
  (r.1, p, r.2)

/-- The `createContainer` method call with the proxy and the account state
threaded explicitly. -/
def createContainerCall (p : BlobStorageClientProxy) (w : StorageAccount)
    (containerName : String) :
    Except JsError Unit × BlobStorageClientProxy × StorageAccount :=
  let r := sdkCreateContainer w containerName
  (r.1, p, r.2)

/-- Shape of the SDK's upload acknowledgment (`BlobUploadCommonResponse`). -/
structure StorageBlobResponse where
  etag : String
  requestId : String
deriving DecidableEq, Repr

/-- The `uploadFile` method call with the proxy threaded explicitly and
the SDK's `uploadFile` passed in as an oracle taking the client handle and
the local file path. -/
def uploadFileCall (p : BlobStorageClientProxy)
    (upload : BlockBlobClient → String → Except JsError StorageBlobResponse)
    (container file blobName : String) :
    Except JsError StorageBlobResponse × BlobStorageClientProxy :=
  (upload (getBlobClient p container blobName) file, p)

lemma foldl_push {A B : Type} (f : A → B) (l : List A) (acc : List B) :
    l.foldl (fun a x => a ++ [f x]) acc = acc ++ l.map f := by
  induction l generalizing acc with
  | nil => simp
  | cons x xs ih => simp [ih]

/-- The descriptors one page contributes, directory entries first. -/
def pageDescriptors (container : String) (pg : SdkPage) : List BlobDescriptor :=
  pg.segment.blobPrefixes.map (dirDescriptor container) ++
    pg.segment.blobItems.map (fileDescriptor container)

lemma listBlobsLoop_eq (container : String) (pages : List SdkPage)
    (acc : List BlobDescriptor) :
    listBlobsLoop container acc pages =
      acc ++ (pages.map (pageDescriptors container)).flatten := by
  induction pages generalizing acc with
  | nil => simp [listBlobsLoop]
  | cons pg rest ih => simp [listBlobsLoop, foldl_push, pageDescriptors, ih]

lemma mem_listBlobs_data (container : String) (pages : List SdkPage)
    (tok : Option String) (dd : BlobDescriptor) :
    dd ∈ (listBlobs container pages tok).data ↔
      ∃ pg ∈ pages,
        (∃ d ∈ pg.segment.blobPrefixes, dd = dirDescriptor container d) ∨
        (∃ b ∈ pg.segment.blobItems, dd = fileDescriptor container b) := by
  simp only [listBlobs, listBlobsLoop_eq, pageDescriptors, List.nil_append,
    List.mem_flatten, List.mem_map]
  constructor
  · rintro ⟨l, ⟨pg, hpg, rfl⟩, hdd⟩
    refine ⟨pg, hpg, ?_⟩
    rcases List.mem_append.mp hdd with h | h
    · rcases List.mem_map.mp h with ⟨d, hd, rfl⟩
      exact Or.inl ⟨d, hd, rfl⟩
    · rcases List.mem_map.mp h with ⟨b, hb, rfl⟩
      exact Or.inr ⟨b, hb, rfl⟩
  · rintro ⟨pg, hpg, h | h⟩
    · rcases h with ⟨d, hd, rfl⟩
      exact ⟨_, ⟨pg, hpg, rfl⟩, List.mem_append.mpr (Or.inl (List.mem_map_of_mem _ hd))⟩
    · rcases h with ⟨b, hb, rfl⟩
      exact ⟨_, ⟨pg, hpg, rfl⟩, List.mem_append.mpr (Or.inr (List.mem_map_of_mem _ hb))⟩

lemma utf8Decode_nil : utf8Decode [] = some [] := by
  unfold utf8Decode
  rfl

lemma utf8Decode_step (l : List Nat) (p : Nat × List Nat) (h : decode1 l = some p) :
    utf8Decode l = (utf8Decode p.2).map (fun cs => p.1 :: cs) := by
  conv_lhs => unfold utf8Decode
  split
  · rename_i q hq
    rw [h] at hq
    cases hq
    rfl
  · rename_i hq
    rw [h] at hq
    cases hq

lemma contByte_of (b : Nat) (h1 : 0x80 ≤ b) (h2 : b < 0xC0) : contByte b = true := by
  simp only [contByte, Bool.and_eq_true, decide_eq_true_eq]
  omega

lemma cont1_cons (b : Nat) (l : List Nat) (h : contByte b = true) :
    cont1 (b :: l) = some (b - 0x80, l) := by
  simp only [cont1, h, if_pos]

lemma decode1_encodeChar (c : Nat) (hv : validCp c = true) (l : List Nat) :
    decode1 (encodeChar c ++ l) = some (c, l) := by
  have hv2 : c < 0xD800 ∨ (0xE000 ≤ c ∧ c < 0x110000) := by
    simp only [validCp, Bool.or_eq_true, Bool.and_eq_true, decide_eq_true_eq] at hv
    exact hv
  rcases Nat.lt_or_ge c 0x80 with h1 | h1
  · have e : encodeChar c = [c] := by
      unfold encodeChar
      rw [if_pos h1]
    rw [e, List.cons_append, List.nil_append]
    simp only [decode1]
    rw [if_pos h1]
  · rcases Nat.lt_or_ge c 0x800 with h2 | h2
    · have e : encodeChar c = [0xC0 + c / 64, 0x80 + c % 64] := by
        unfold encodeChar
        rw [if_neg (by omega), if_pos h2]
      rw [e]
      simp only [List.cons_append, List.nil_append, decode1]
      rw [if_neg (by omega), if_pos (by omega)]
      rw [cont1_cons _ _ (contByte_of _ (by omega) (by omega))]
      simp only [Option.some_bind]
      rw [if_pos (by omega)]
      simp only [Option.some.injEq, Prod.mk.injEq]
      exact ⟨by omega, trivial⟩
    · rcases Nat.lt_or_ge c 0x10000 with h3 | h3
      · have e : encodeChar c = [0xE0 + c / 4096, 0x80 + c / 64 % 64, 0x80 + c % 64] := by
          unfold encodeChar
          rw [if_neg (by omega), if_neg (by omega), if_pos h3]
        rw [e]
        simp only [List.cons_append, List.nil_append, decode1]
        rw [if_neg (by omega), if_neg (by omega), if_pos (by omega)]
        have hc2 : cont2 ((0x80 + c / 64 % 64) :: (0x80 + c % 64) :: l) =
            some ((c / 64 % 64) * 64 + c % 64, l) := by
          unfold cont2
          rw [cont1_cons _ _ (contByte_of _ (by omega) (by omega))]
          simp only [Option.some_bind]
          rw [cont1_cons _ _ (contByte_of _ (by omega) (by omega))]
          simp only [Option.map_some', Option.some.injEq, Prod.mk.injEq]
          exact ⟨by omega, trivial⟩
        rw [hc2]
        simp only [Option.some_bind]
        have hE : (0xE0 + c / 4096 - 0xE0) * 4096 + ((c / 64 % 64) * 64 + c % 64) = c := by
          omega
        rw [hE]
        rw [if_pos (by simp only [validCp, Bool.and_eq_true, Bool.or_eq_true,
              decide_eq_true_eq]; omega)]
      · have hc4 : c < 0x110000 := by omega
        have e : encodeChar c = [0xF0 + c / 262144, 0x80 + c / 4096 % 64,
            0x80 + c / 64 % 64, 0x80 + c % 64] := by
          unfold encodeChar
          rw [if_neg (by omega), if_neg (by omega), if_neg (by omega)]
        rw [e]
        simp only [List.cons_append, List.nil_append, decode1]
        rw [if_neg (by omega), if_neg (by omega), if_neg (by omega), if_pos (by omega)]
        have hc3 : cont3 ((0x80 + c / 4096 % 64) :: (0x80 + c / 64 % 64) :: (0x80 + c % 64) :: l) =
            some ((c / 4096 % 64) * 4096 + ((c / 64 % 64) * 64 + c % 64), l) := by
          unfold cont3
          rw [cont1_cons _ _ (contByte_of _ (by omega) (by omega))]
          simp only [Option.some_bind]
          have hc2 : cont2 ((0x80 + c / 64 % 64) :: (0x80 + c % 64) :: l) =
              some ((c / 64 % 64) * 64 + c % 64, l) := by
            unfold cont2
            rw [cont1_cons _ _ (contByte_of _ (by omega) (by omega))]
            simp only [Option.some_bind]
            rw [cont1_cons _ _ (contByte_of _ (by omega) (by omega))]
            simp only [Option.map_some', Option.some.injEq, Prod.mk.injEq]
            exact ⟨by omega, trivial⟩
          rw [hc2]
          simp only [Option.map_some', Option.some.injEq, Prod.mk.injEq]
          exact ⟨by omega, trivial⟩
        rw [hc3]
        simp only [Option.some_bind]
        have hE : (0xF0 + c / 262144 - 0xF0) * 262144 +
            ((c / 4096 % 64) * 4096 + ((c / 64 % 64) * 64 + c % 64)) = c := by
          omega
        rw [hE]
        rw [if_pos (by simp only [Bool.and_eq_true, decide_eq_true_eq]; omega)]

lemma utf8Decode_utf8Encode (cs : List Nat) (hv : ∀ c ∈ cs, validCp c = true) :
    utf8Decode (utf8Encode cs) = some cs := by
  induction cs with
  | nil => exact utf8Decode_nil
  | cons c rest ih =>
      have hc : validCp c = true := hv c (List.mem_cons_self c rest)
      have hrest : ∀ x ∈ rest, validCp x = true := fun x hx => hv x (List.mem_cons_of_mem c hx)
      have he : utf8Encode (c :: rest) = encodeChar c ++ utf8Encode rest := by
        simp [utf8Encode]
      rw [he, utf8Decode_step _ _ (decode1_encodeChar c hc (utf8Encode rest)), ih hrest]
      rfl

lemma utf8Decode_cons_none (b : Nat) (l : List Nat) (h : decode1 (b :: l) = none) :
    utf8Decode (b :: l) = none := by
  conv_lhs => unfold utf8Decode
  split
  · rename_i q hq
    rw [h] at hq
    cases hq
  · rfl

/-- Sample blob items used to instantiate the listing theorems. -/
def sampleBlobs : List SdkBlobItem :=
  [ { name := "1001/$TaskOutput/stdout.txt"
      properties := { contentLength := 10, contentType := "text/plain",
                      creationTime := some 5, lastModified := 100 } },
    { name := "1001/$TaskOutput/sub/inner.txt"
      properties := { contentLength := 20, contentType := "text/plain",
                      creationTime := none, lastModified := 200 } },
    { name := "2002/other.txt"
      properties := { contentLength := 30, contentType := "text/plain",
                      creationTime := some 7, lastModified := 300 } } ]

/-- C1 counterexample: listBlobs consumes the whole enumeration, yet when a
continuation token is passed in the returned continuationToken is that very
token rather than undefined, refuting the claim that the field is the token
for the next page (undefined when the enumeration is exhausted). -/
theorem listBlobs_token_cex :
    (listBlobs "grp-1"
      [{ segment := { blobPrefixes := [], blobItems := [] }, continuationToken := none }]
      (some "marker")).continuationToken ≠ none := by
  decide

/-- C1 (amended): the data sequence is, page by page in the order the source
yields them, the directory-prefix descriptors followed by the file
descriptors of that page; the continuationToken field is the
continuation-token argument echoed back unchanged. -/
theorem listBlobs_page_order_and_token :
    ∀ (container : String) (pages : List SdkPage) (tok : Option String),
      (listBlobs container pages tok).data =
        (pages.map (fun pg =>
          pg.segment.blobPrefixes.map (dirDescriptor container) ++
          pg.segment.blobItems.map (fileDescriptor container))).flatten ∧
      (listBlobs container pages tok).continuationToken = tok := by
  intro container pages tok
  refine ⟨?_, rfl⟩
  simp only [listBlobs, listBlobsLoop_eq, List.nil_append]
  rfl

/-- C2 counterexample: with a blob supplied, getUrl produces a double slash
between the container and the blob, so the composed string is not exactly
https://account.endpoint/container/blob-sasToken. -/
theorem getUrl_exact_composition_cex :
    getUrl (mkBlobStorageClientProxy { accountName := "acc", accountKey := "key" }
        "blob.core.windows.net") "cont" (some "b") (some "?sig") ≠
      "https://acc.blob.core.windows.net/cont/b?sig" ∧
    getUrl (mkBlobStorageClientProxy { accountName := "acc", accountKey := "key" }
        "blob.core.windows.net") "cont" (some "b") (some "?sig") =
      "https://acc.blob.core.windows.net/cont//b?sig" := by
  exact ⟨by decide, by decide⟩

/-- C2 (amended): with a nonempty blob and a sasToken the composed string is
https://account.endpoint/container//blob-sasToken, with a doubled slash
before the blob; with no blob the composition is exactly as claimed:
container slash then the sasToken or the empty string. -/
theorem getUrl_composition :
    ∀ (cred : StorageSharedKeyCredential) (endpoint container b t : String),
      b ≠ "" →
      (getUrl (mkBlobStorageClientProxy cred endpoint) container (some b) (some t) =
        "https://" ++ cred.accountName ++ "." ++ endpoint ++ "/" ++ container ++ "//" ++ b ++ t) ∧
      (getUrl (mkBlobStorageClientProxy cred endpoint) container none (some t) =
        "https://" ++ cred.accountName ++ "." ++ endpoint ++ "/" ++ container ++ "/" ++ t) ∧
      (getUrl (mkBlobStorageClientProxy cred endpoint) container none none =
        "https://" ++ cred.accountName ++ "." ++ endpoint ++ "/" ++ container ++ "/") := by
  intro cred endpoint container b t hb
  have hbe : b.isEmpty = false := by
    cases h : b.isEmpty with
    | true => exact absurd ((String.isEmpty_iff b).mp h) hb
    | false => rfl
  refine ⟨?_, ?_, ?_⟩
  · simp only [getUrl, jsTruthy, jsInterp, mkBlobStorageClientProxy, jsJoin, hbe,
      Bool.not_false, if_pos, String.append_assoc]
    rw [show ("//" : String) = "/" ++ "/" from rfl, String.append_assoc]
  · simp [getUrl, jsTruthy, jsJoinElem, jsJoin, mkBlobStorageClientProxy, String.append_assoc]
  · simp [getUrl, jsTruthy, jsJoinElem, jsJoin, mkBlobStorageClientProxy, String.append_assoc]

/-- Witness instantiating getUrl_composition at concrete values. -/
theorem getUrl_composition_witness :
    ("b" : String) ≠ "" ∧
    getUrl (mkBlobStorageClientProxy { accountName := "acc", accountKey := "key" } "ep")
        "cont" (some "b") (some "?sig") = "https://acc.ep/cont//b?sig" ∧
    getUrl (mkBlobStorageClientProxy { accountName := "acc", accountKey := "key" } "ep")
        "cont" none none = "https://acc.ep/cont/" := by
  refine ⟨by decide, ?_, ?_⟩
  · have h := (getUrl_composition { accountName := "acc", accountKey := "key" } "ep"
      "cont" "b" "?sig" (by decide)).1
    rw [h]
    decide
  · have h := (getUrl_composition { accountName := "acc", accountKey := "key" } "ep"
      "cont" "b" "?sig" (by decide)).2.2
    rw [h]
    decide

/-- C3 counterexample: from a state in which the blob is absent, the first of
two successive deleteBlobIfExists calls returns false, not true; likewise
createContainerIfNotExists returns false first when the container already
exists.  This refutes the from-any-state true-then-false claim. -/
theorem ifExists_twice_cex :
    (deleteBlobIfExists { blobs := [], containers := [] } "cont" "blob").1 ≠ true ∧
    (createContainerIfNotExists { blobs := [], containers := ["cont"] } "cont").1 ≠ true := by
  exact ⟨by decide, by decide⟩

/-- C3 (amended): the booleans report exactly whether an action occurred:
deleteBlobIfExists returns true iff the blob existed, and
createContainerIfNotExists returns true iff the container did not exist, as
normal return values; the second of two successive calls always returns
false, so the pair returns true then false exactly when the blob initially
existed (respectively the container was initially absent). -/
theorem ifExists_boolean_semantics :
    ∀ (w : StorageAccount) (c b n : String),
      ((deleteBlobIfExists w c b).1 = true ↔ (c, b) ∈ w.blobs) ∧
      ((createContainerIfNotExists w n).1 = true ↔ n ∉ w.containers) ∧
      (deleteBlobIfExists (deleteBlobIfExists w c b).2 c b).1 = false ∧
      (createContainerIfNotExists (createContainerIfNotExists w n).2 n).1 = false := by
  intro w c b n
  refine ⟨?_, ?_, ?_, ?_⟩
  · by_cases h : (c, b) ∈ w.blobs <;>
      simp [deleteBlobIfExists, sdkDeleteIfExists, h]
  · by_cases h : n ∈ w.containers <;>
      simp [createContainerIfNotExists, sdkCreateIfNotExists, h]
  · by_cases h : (c, b) ∈ w.blobs <;>
      simp [deleteBlobIfExists, sdkDeleteIfExists, h, List.mem_filter]
  · by_cases h : n ∈ w.containers <;>
      simp [createContainerIfNotExists, sdkCreateIfNotExists, h]

/-- Witness: with the blob present and the container absent, the pairs of
successive calls return true then false. -/
theorem ifExists_boolean_semantics_witness :
    (("cont", "blob") ∈ (StorageAccount.mk [("cont", "blob")] []).blobs) ∧
    (deleteBlobIfExists { blobs := [("cont", "blob")], containers := [] } "cont" "blob").1 = true ∧
    (deleteBlobIfExists
      (deleteBlobIfExists { blobs := [("cont", "blob")], containers := [] } "cont" "blob").2
      "cont" "blob").1 = false ∧
    (createContainerIfNotExists { blobs := [], containers := [] } "k").1 = true ∧
    (createContainerIfNotExists
      (createContainerIfNotExists { blobs := [], containers := [] } "k").2 "k").1 = false := by
  refine ⟨by decide,
    (ifExists_boolean_semantics { blobs := [("cont", "blob")], containers := [] }
      "cont" "blob" "k").1.mpr (by decide),
    (ifExists_boolean_semantics { blobs := [("cont", "blob")], containers := [] }
      "cont" "blob" "k").2.2.1,
    (ifExists_boolean_semantics { blobs := [], containers := [] } "cont" "blob" "k").2.1.mpr
      (by decide),
    (ifExists_boolean_semantics { blobs := [], containers := [] } "cont" "blob" "k").2.2.2⟩

/-- C4: with recursive false the delimiter handed to the enumeration is "/",
and every file descriptor returned names a blob directly under the folder:
the folder filter is a prefix of the name and the remainder has no
delimiter; with recursive true no directory descriptors are produced and the
data is exactly the flattened matching blobs as file descriptors. -/
theorem listBlobs_delimiter_behavior :
    ∀ (container pfx : String) (blobs : List SdkBlobItem)
      (optsN optsR : ListBlobOptions) (pagesN pagesR : List SdkPage)
      (tokN tokR : Option String),
      optsN.recursive = false →
      optsR.recursive = true →
      (pagesN.map (fun pg => pg.segment.blobItems)).flatten =
        hierItems (listBlobsDelimiter optsN) pfx blobs →
      (pagesR.map (fun pg => pg.segment.blobItems)).flatten =
        hierItems (listBlobsDelimiter optsR) pfx blobs →
      (pagesR.map (fun pg => pg.segment.blobPrefixes)).flatten =
        hierDirs (listBlobsDelimiter optsR) pfx blobs →
      listBlobsDelimiter optsN = some '/' ∧
      (∀ dd ∈ (listBlobs container pagesN tokN).data, dd.isDirectory = false →
        strIsPrefixOf pfx dd.name = true ∧ strContains (restAfter pfx dd.name) '/' = false) ∧
      (listBlobs container pagesR tokR).data =
        (hierItems (listBlobsDelimiter optsR) pfx blobs).map (fileDescriptor container) ∧
      (∀ bi : SdkBlobItem, bi ∈ hierItems (listBlobsDelimiter optsR) pfx blobs ↔
        bi ∈ blobs ∧ strIsPrefixOf pfx bi.name = true) := by
  intro container pfx blobs optsN optsR pagesN pagesR tokN tokR hrecN hrecR hItemsN hItemsR hDirsR
  have hdelN : listBlobsDelimiter optsN = some '/' := by
    simp [listBlobsDelimiter, hrecN]
  have hdelR : listBlobsDelimiter optsR = none := by
    simp [listBlobsDelimiter, hrecR]
  rw [hdelN] at hItemsN
  rw [hdelR] at hItemsR hDirsR
  refine ⟨hdelN, ?_, ?_, ?_⟩
  · intro dd hdd hfile
    rw [mem_listBlobs_data] at hdd
    obtain ⟨pg, hpg, hcase⟩ := hdd
    rcases hcase with ⟨d, hd, rfl⟩ | ⟨bi, hbi, rfl⟩
    · simp [dirDescriptor] at hfile
    · have hmem : bi ∈ (pagesN.map (fun pg => pg.segment.blobItems)).flatten :=
        List.mem_flatten.mpr ⟨pg.segment.blobItems, List.mem_map_of_mem _ hpg, hbi⟩
      rw [hItemsN] at hmem
      simp only [hierItems, List.mem_filter, Bool.and_eq_true, Bool.not_eq_true'] at hmem
      exact ⟨hmem.2.1, hmem.2.2⟩
  · have hdirs : ∀ pg ∈ pagesR, pg.segment.blobPrefixes = [] := by
      have h0 : (pagesR.map (fun pg => pg.segment.blobPrefixes)).flatten = [] := by
        rw [hDirsR]
        rfl
      intro pg hpg
      exact List.flatten_eq_nil_iff.mp h0 _ (List.mem_map_of_mem _ hpg)
    have step1 : (listBlobs container pagesR tokR).data =
        ((pagesR.map (fun pg => pg.segment.blobItems.map (fileDescriptor container)))).flatten := by
      simp only [listBlobs, listBlobsLoop_eq, List.nil_append]
      congr 1
      apply List.map_congr_left
      intro pg hpg
      simp [pageDescriptors, hdirs pg hpg]
    rw [step1, hdelR, ← hItemsR, List.map_flatten, List.map_map]
    rfl
  · intro bi
    rw [hdelR]
    simp [hierItems, List.mem_filter]

/-- Witness instantiating listBlobs_delimiter_behavior on sample blobs with
folder 1001/$TaskOutput/ in container grp-1. -/
theorem listBlobs_delimiter_behavior_witness :
    (ListBlobOptions.recursive
      { folder := some "1001/$TaskOutput/", recursive := false, limit := none } = false) ∧
    (∀ dd ∈ (listBlobs "grp-1"
        [{ segment := hierarchySegment (some '/') "1001/$TaskOutput/" sampleBlobs
           continuationToken := none }] none).data,
      dd.isDirectory = false →
      strIsPrefixOf "1001/$TaskOutput/" dd.name = true ∧
      strContains (restAfter "1001/$TaskOutput/" dd.name) '/' = false) :=
  ⟨rfl,
    (listBlobs_delimiter_behavior "grp-1" "1001/$TaskOutput/" sampleBlobs
      { folder := some "1001/$TaskOutput/", recursive := false, limit := none }
      { folder := some "1001/$TaskOutput/", recursive := true, limit := none }
      [{ segment := hierarchySegment (some '/') "1001/$TaskOutput/" sampleBlobs
         continuationToken := none }]
      [{ segment := hierarchySegment none "1001/$TaskOutput/" sampleBlobs
         continuationToken := none }]
      none none rfl rfl (by decide) (by decide) (by decide)).2.1⟩

/-- C5: getBlobProperties propagates the underlying getProperties outcome
unchanged: a rejection surfaces as the very same error (no catch, retry or
translation), it fails exactly when the underlying call fails, and a
fulfilled call yields the envelope of exactly one file descriptor for the
requested blob. -/
theorem getBlobProperties_passthrough :
    ∀ (r : Except JsError SdkGetPropsResponse) (container blobName blobPfx : String),
      (∀ e, r = .error e →
        getBlobProperties r container blobName blobPfx = .error e) ∧
      ((∃ e, getBlobProperties r container blobName blobPfx = .error e) ↔
        ∃ e, r = .error e) ∧
      (∀ v, r = .ok v →
        getBlobProperties r container blobName blobPfx = .ok
          { data :=
            { name := blobName
              url := container ++ "/" ++ (blobPfx ++ blobName)
              isDirectory := false
              properties := some
                { contentLength := v.contentLength
                  contentType := v.contentType
                  creationTime := none
                  lastModified := v.lastModified } } }) := by
  intro r container blobName blobPfx
  cases r with
  | error e => simp [getBlobProperties]
  | ok v => simp [getBlobProperties]

/-- Witness: a not-found rejection of the underlying client propagates
unchanged, and a fulfilled call returns the single descriptor. -/
theorem getBlobProperties_passthrough_witness :
    getBlobProperties
        (.error (.sdkError "BlobNotFound" "The specified blob does not exist."))
        "cont" "blob.txt" "" =
      .error (.sdkError "BlobNotFound" "The specified blob does not exist.") ∧
    getBlobProperties
        (.ok { contentLength := 12, contentType := "text/plain",
               creationTime := some 3, lastModified := 77 })
        "cont" "blob.txt" "1001/" =
      .ok { data :=
            { name := "blob.txt"
              url := "cont" ++ "/" ++ ("1001/" ++ "blob.txt")
              isDirectory := false
              properties := some
                { contentLength := 12
                  contentType := "text/plain"
                  creationTime := none
                  lastModified := 77 } } } :=
  ⟨(getBlobProperties_passthrough _ "cont" "blob.txt" "").1 _ rfl,
   (getBlobProperties_passthrough _ "cont" "blob.txt" "1001/").2.2 _ rfl⟩

/-- C6: when the downloaded bytes are a supported text encoding the content
is the decoded text, so a blob holding UTF-8 encoded text comes back as the
original text (decode after encode); when no supported encoding is detected
the raw-byte string representation is returned. -/
theorem getBlobContent_encoding :
    (∀ cs : List Nat, (∀ c ∈ cs, validCp c = true) →
      getBlobContent (utf8Encode cs) = BlobContent.text cs) ∧
    (∀ buffer : List Nat, detectEncodingFromBuffer buffer = none →
      getBlobContent buffer = BlobContent.raw buffer) := by
  constructor
  · intro cs hv
    have h := utf8Decode_utf8Encode cs hv
    simp [getBlobContent, detectEncodingFromBuffer, h]
  · intro buffer h
    cases hd : utf8Decode buffer with
    | some cs => simp [detectEncodingFromBuffer, hd] at h
    | none => simp [getBlobContent, detectEncodingFromBuffer, hd]

/-- Witness: a four-code-point text (ascii, two-byte, three-byte and
four-byte characters) round-trips through UTF-8; a buffer starting 0xFF
matches no supported encoding and comes back raw. -/
theorem getBlobContent_encoding_witness :
    (∀ c ∈ [104, 233, 8364, 128512], validCp c = true) ∧
    getBlobContent (utf8Encode [104, 233, 8364, 128512]) =
      BlobContent.text [104, 233, 8364, 128512] ∧
    detectEncodingFromBuffer [255, 65] = none ∧
    getBlobContent [255, 65] = BlobContent.raw [255, 65] := by
  have h1 : utf8Decode [255, 65] = none := utf8Decode_cons_none 255 [65] (by decide)
  have hdet : detectEncodingFromBuffer [255, 65] = none := by
    simp [detectEncodingFromBuffer, h1]
  exact ⟨by decide, getBlobContent_encoding.1 _ (by decide), hdet,
    getBlobContent_encoding.2 _ hdet⟩

/-- C7: directory descriptors never carry a properties field; file
descriptors always carry the property bag, both in listBlobs output and in
a successful getBlobProperties envelope. -/
theorem descriptor_properties_invariant :
    ∀ (container : String) (pages : List SdkPage) (tok : Option String),
      (∀ dd ∈ (listBlobs container pages tok).data,
        (dd.isDirectory = true → dd.properties = none) ∧
        (dd.isDirectory = false → ∃ pr : BlobProperties, dd.properties = some pr)) ∧
      (∀ (r : Except JsError SdkGetPropsResponse) (c bn bp : String)
        (env : BlobStorageResult BlobDescriptor),
        getBlobProperties r c bn bp = .ok env →
        env.data.isDirectory = false ∧
        ∃ pr : BlobProperties, env.data.properties = some pr) := by
  intro container pages tok
  constructor
  · intro dd hdd
    rw [mem_listBlobs_data] at hdd
    obtain ⟨pg, hpg, hcase⟩ := hdd
    rcases hcase with ⟨d, hd, rfl⟩ | ⟨bi, hbi, rfl⟩
    · exact ⟨fun _ => rfl, fun hfalse => by simp [dirDescriptor] at hfalse⟩
    · exact ⟨fun htrue => by simp [fileDescriptor] at htrue, fun _ => ⟨_, rfl⟩⟩
  · intro r c bn bp env h
    cases r with
    | error e => simp [getBlobProperties] at h
    | ok v =>
        simp only [getBlobProperties, Except.ok.injEq] at h
        subst h
        exact ⟨rfl, _, rfl⟩

/-- Witness: in a concrete listing the directory descriptor carries no
properties and the file descriptor carries a bag. -/
theorem descriptor_properties_invariant_witness :
    (dirDescriptor "grp-1" { name := "1001/" }).properties = none ∧
    ∃ pr : BlobProperties,
      (fileDescriptor "grp-1"
        { name := "a.txt"
          properties := { contentLength := 1, contentType := "t",
                          creationTime := some 3, lastModified := 9 } }).properties = some pr :=
  ⟨((descriptor_properties_invariant "grp-1"
      [{ segment :=
          { blobPrefixes := [{ name := "1001/" }]
            blobItems := [{ name := "a.txt"
                            properties := { contentLength := 1, contentType := "t",
                                            creationTime := some 3, lastModified := 9 } }] }
         continuationToken := none }] none).1 _ (by decide)).1 rfl,
   ((descriptor_properties_invariant "grp-1"
      [{ segment :=
          { blobPrefixes := [{ name := "1001/" }]
            blobItems := [{ name := "a.txt"
                            properties := { contentLength := 1, contentType := "t",
                                            creationTime := some 3, lastModified := 9 } }] }
         continuationToken := none }] none).1 _ (by decide)).2 rfl⟩

/-- C8: the constructor stores the credential, the endpoint and the service
client built from them; every one of the thirteen public operations
(listBlobs, getBlobProperties, getBlobContent, getBlobToLocalFile,
deleteBlobIfExists, listContainersWithPrefix, getContainerProperties,
deleteContainer, createContainer, createContainerIfNotExists,
generateSasUrl, getUrl, uploadFile) returns the proxy unchanged, and the
per-call client handles are pure functions of the shared service client,
so the proxy holds no cross-call state. -/
theorem proxy_state_immutable :
    ∀ (cred : StorageSharedKeyCredential) (endpoint : String),
      ((mkBlobStorageClientProxy cred endpoint).credential = cred ∧
       (mkBlobStorageClientProxy cred endpoint).blobEndpoint = endpoint ∧
       (mkBlobStorageClientProxy cred endpoint).storageService =
         { url := "https://" ++ cred.accountName ++ "." ++ endpoint
           credential := cred }) ∧
    ∀ (p : BlobStorageClientProxy),
      (∀ (container : String) (pages : List SdkPage) (tok : Option String),
        (listBlobsCall p container pages tok).2 = p) ∧
      (∀ (props : Except JsError SdkGetPropsResponse) (c bn bp : String),
        (getBlobPropertiesCall p props c bn bp).2 = p) ∧
      (∀ (w : StorageAccount) (c b : String),
        (deleteBlobIfExistsCall p w c b).2.1 = p) ∧
      (∀ (w : StorageAccount) (n : String),
        (createContainerIfNotExistsCall p w n).2.1 = p) ∧
      (∀ (c : String) (b t : Option String), (getUrlCall p c b t).2 = p) ∧
      (∀ (bs : BlockBlobClient → String → Except JsError String)
         (cs : ContainerClient → String → Except JsError String)
         (c : String) (b : Option String) (ap : Option SharedAccessPolicy),
        (generateSasUrlCall p bs cs c b ap).2 = p) ∧
      (∀ (buffer : List Nat) (c b : String),
        (getBlobContentCall p buffer c b).2 = p) ∧
      (∀ (download : BlockBlobClient → String → Except JsError Unit)
         (c b f : String),
        (getBlobToLocalFileCall p download c b f).2 = p) ∧
      (∀ (pfx : String) (pages : List SdkContainerPage) (tok : Option String),
        (listContainersWithPrefixCall p pfx pages tok).2 = p) ∧
      (∀ (response : Except JsError SdkContainerGetPropsResponse) (c : String),
        (getContainerPropertiesCall p response c).2 = p) ∧
      (∀ (w : StorageAccount) (c : String),
        (deleteContainerCall p w c).2.1 = p) ∧
      (∀ (w : StorageAccount) (n : String),
        (createContainerCall p w n).2.1 = p) ∧
      (∀ (upload : BlockBlobClient → String → Except JsError StorageBlobResponse)
         (c f bn : String),
        (uploadFileCall p upload c f bn).2 = p) ∧
      (∀ c : String, getContainerClient p c =
        { service := p.storageService, containerName := c }) ∧
      (∀ c b : String, getBlobClient p c b =
        { containerClient := { service := p.storageService, containerName := c }
          blobName := b }) := by
  intro cred endpoint
  exact ⟨⟨rfl, rfl, rfl⟩, fun p =>
    ⟨fun _ _ _ => rfl, fun _ _ _ _ => rfl, fun _ _ _ => rfl, fun _ _ => rfl,
     fun _ _ _ => rfl, fun _ _ _ _ _ => rfl, fun _ _ _ => rfl, fun _ _ _ _ => rfl,
     fun _ _ _ => rfl, fun _ _ => rfl, fun _ _ => rfl, fun _ _ => rfl,
     fun _ _ _ _ => rfl, fun _ => rfl, fun _ _ => rfl⟩⟩

/-- C9: with accessPolicy undefined, generateSasUrl fails with the
TypeError from dereferencing accessPolicy.AccessPolicy.Permissions, and the
outcome does not depend on the SDK oracles, so no SDK call is made; the
call returns normally only when an accessPolicy is supplied. -/
theorem generateSasUrl_undefined_accessPolicy :
    ∀ (p : BlobStorageClientProxy)
      (bs1 bs2 : BlockBlobClient → String → Except JsError String)
      (cs1 cs2 : ContainerClient → String → Except JsError String)
      (container : String) (blob : Option String),
      generateSasUrl p bs1 cs1 container blob none =
        .error (.typeError "Cannot read properties of undefined") ∧
      generateSasUrl p bs1 cs1 container blob none =
        generateSasUrl p bs2 cs2 container blob none ∧
      (∀ (ap : Option SharedAccessPolicy) (s : String),
        generateSasUrl p bs1 cs1 container blob ap = .ok s → ap ≠ none) := by
  intro p bs1 bs2 cs1 cs2 container blob
  refine ⟨rfl, rfl, ?_⟩
  intro ap s h hnone
  subst hnone
  simp [generateSasUrl] at h

/-- Witness: the TypeError outcome at concrete inputs, and a normal return
with an accessPolicy supplied. -/
theorem generateSasUrl_undefined_accessPolicy_witness :
    generateSasUrl (mkBlobStorageClientProxy { accountName := "acc", accountKey := "key" } "ep")
        (fun _ _ => .ok "bloburl") (fun _ _ => .ok "conturl") "cont" (some "b") none =
      .error (.typeError "Cannot read properties of undefined") ∧
    (some { AccessPolicy := { Permissions := "racwd" } } : Option SharedAccessPolicy) ≠ none :=
  ⟨(generateSasUrl_undefined_accessPolicy
      (mkBlobStorageClientProxy { accountName := "acc", accountKey := "key" } "ep")
      (fun _ _ => .ok "bloburl") (fun _ _ => .ok "bloburl")
      (fun _ _ => .ok "conturl") (fun _ _ => .ok "conturl") "cont" (some "b")).1,
   (generateSasUrl_undefined_accessPolicy
      (mkBlobStorageClientProxy { accountName := "acc", accountKey := "key" } "ep")
      (fun _ _ => .ok "bloburl") (fun _ _ => .ok "bloburl")
      (fun _ _ => .ok "conturl") (fun _ _ => .ok "conturl") "cont" (some "b")).2.2
     (some { AccessPolicy := { Permissions := "racwd" } }) "bloburl" rfl⟩

/-- C10: every property bag the proxy emits has creationTime null, whatever
creation time the underlying source reports, both in listBlobs output and
in a successful getBlobProperties envelope. -/
theorem creationTime_always_null :
    ∀ (container : String) (pages : List SdkPage) (tok : Option String),
      (∀ dd ∈ (listBlobs container pages tok).data, ∀ pr : BlobProperties,
        dd.properties = some pr → pr.creationTime = none) ∧
      (∀ (r : Except JsError SdkGetPropsResponse) (c bn bp : String)
        (env : BlobStorageResult BlobDescriptor),
        getBlobProperties r c bn bp = .ok env →
        ∀ pr : BlobProperties, env.data.properties = some pr →
        pr.creationTime = none) := by
  intro container pages tok
  constructor
  · intro dd hdd pr hpr
    rw [mem_listBlobs_data] at hdd
    obtain ⟨pg, hpg, hcase⟩ := hdd
    rcases hcase with ⟨d, hd, rfl⟩ | ⟨bi, hbi, rfl⟩
    · simp [dirDescriptor] at hpr
    · simp only [fileDescriptor, Option.some.injEq] at hpr
      subst hpr
      rfl
  · intro r c bn bp env h pr hpr
    cases r with
    | error e => simp [getBlobProperties] at h
    | ok v =>
        simp only [getBlobProperties, Except.ok.injEq] at h
        subst h
        simp only [Option.some.injEq] at hpr
        subst hpr
        rfl

/-- Witness: the underlying source reports creation time 42, the emitted
bag has creationTime null. -/
theorem creationTime_always_null_witness :
    (fileDescriptor "cont"
      { name := "f.txt"
        properties := { contentLength := 1, contentType := "t",
                        creationTime := some 42, lastModified := 2 } }).properties =
      some { contentLength := 1, contentType := "t",
             creationTime := none, lastModified := 2 } ∧
    BlobProperties.creationTime
      { contentLength := 1, contentType := "t",
        creationTime := none, lastModified := 2 } = none :=
  ⟨rfl,
   (creationTime_always_null "cont"
      [{ segment :=
          { blobPrefixes := []
            blobItems := [{ name := "f.txt"
                            properties := { contentLength := 1, contentType := "t",
                                            creationTime := some 42, lastModified := 2 } }] }
         continuationToken := none }] none).1
      (fileDescriptor "cont"
        { name := "f.txt"
          properties := { contentLength := 1, contentType := "t",
                          creationTime := some 42, lastModified := 2 } })
      (by decide) _ rfl⟩

end BlobProxy

